import Mathlib

/-!
# Verification of the `DeviceHostFile` tiered spill cache

A shallow embedding of `dask_cuda/device_host_file.py`: a three-tier
(device / host / disk) byte-budgeted LRU cache.  The façade
(`DeviceHostFile`) dispatches inserts on a device-residency test, keeps a
residency index (`device_keys`), and composes two zict-style `Buffer`
levels (each a weighted LRU fast store spilling into a slower store
through a serialization transform) over a terminal disk store.

Values, frames and the external serializer collaborators are modelled
abstractly but executably; the cache logic itself follows the Python
source line by line.
-/

/-- Keys are opaque hashable identifiers; modelled as naturals. -/
abbrev Key := Nat

/-- Failures surfaced by cache operations: `notFound` models Python's
`KeyError`; `badValue` models a non-`KeyError` exception raised while
transforming a value (e.g. the `AttributeError` raised when
`host_to_device` is applied to an object that is not a `DeviceSerialized`). -/
inductive Err where
  | notFound
  | badValue
deriving DecidableEq, Repr

/-- One serializer frame: a contiguous byte buffer.  `is_cuda` marks an
accelerator-resident buffer (presence of `__cuda_array_interface__` in the
source); `ident` abstracts the buffer contents and `size` its byte count. -/
structure Frame where
  is_cuda : Bool
  ident : Nat
  size : Nat
deriving DecidableEq, Repr

/-- The header stored by `device_to_host`:
`{"sub-header": sub_header, "is-cuda": is_cuda}`. -/
structure DSHeader where
  sub_header : Nat
  is_cuda : List Bool
deriving DecidableEq, Repr

/-- The encoded form of a device value (`DeviceSerialized` in the source):
a header plus the frames, with accelerator frames copied to host memory. -/
structure DeviceSerialized where
  header : DSHeader
  parts : List Frame
deriving DecidableEq, Repr

/-- Values held by the cache: ordinary host objects, accelerator-resident
objects, or the serialized form produced by `device_to_host`.  `ident`
distinguishes payloads; `size` is the byte size reported by the sizeof
collaborator. -/
inductive Value where
  | host (ident size : Nat)
  | device (ident size : Nat)
  | serialized (ds : DeviceSerialized)
deriving DecidableEq, Repr

/-- `distributed.utils.nbytes` on one frame. -/
def nbytes (f : Frame) : Nat := f.size

/-- `DeviceSerialized.__sizeof__`: the sum of the part byte sizes. -/
def dsSizeof (s : DeviceSerialized) : Nat := (s.parts.map nbytes).sum

/-- Modelled from the spec: the byte-weight collaborator
(`distributed.worker.weight`, outside src/) — the deterministic byte size
of a value; for an encoded device value it is `DeviceSerialized.__sizeof__`. -/
def weight : Value → Nat
  | .host _ s => s
  | .device _ s => s
  | .serialized ds => dsSizeof ds

/-- Modelled from the spec: the accelerator-residency capability test
(`is_device_object`, imported by the source from outside src/): true
exactly on accelerator-resident values. -/
def is_device_object : Value → Bool
  | .device _ _ => true
  | _ => false

/-- Modelled from the spec: the generic object serializer
(`distributed.protocol.serialize` with the cuda serializer, an opaque
collaborator): returns a msgpack-able header and a frame list; a device
value yields an accelerator-resident frame, a host value an ordinary one. -/
def serialize : Value → Nat × List Frame
  | .host i s => (0, [⟨false, i, s⟩])
  | .device i s => (1, [⟨true, i, s⟩])
  | .serialized ds => (2 + ds.header.sub_header, ds.parts)

/-- Modelled from the spec: the generic deserializer
(`distributed.protocol.deserialize`, an opaque collaborator) rebuilding a
value from a header and frames; rebuilding a device value needs its frame
back in accelerator memory. -/
def deserialize : Nat → List Frame → Option Value
  | 0, [f] => some (.host f.ident f.size)
  | 1, [f] => if f.is_cuda then some (.device f.ident f.size) else none
  | _, _ => none

/-- Modelled from the spec: `numba.cuda.as_cuda_array(f).copy_to_host()` —
copy an accelerator frame's bytes into host memory. -/
def copy_to_host (f : Frame) : Frame := ⟨false, f.ident, f.size⟩

/-- Modelled from the spec: `numba.cuda.to_device(f)` — copy a host
frame's bytes into a freshly allocated accelerator buffer. -/
def to_device (f : Frame) : Frame := ⟨true, f.ident, f.size⟩

/-- `device_to_host` from the source: serialize with the cuda serializer,
flag the accelerator frames, copy those to host memory, and package the
result as a `DeviceSerialized`. -/
def device_to_host (obj : Value) : Value :=
  let hf := serialize obj
  let is_cuda := hf.2.map (fun f => f.is_cuda)
  let frames := hf.2.map (fun f => if f.is_cuda then copy_to_host f else f)
  .serialized ⟨⟨hf.1, is_cuda⟩, frames⟩

/-- `host_to_device` from the source: move the flagged parts back to
accelerator memory (`zip` truncates to the shorter of flags/parts, as in
Python) and hand the frames to the generic deserializer.  Applying it to a
value that is not a `DeviceSerialized` fails (Python raises
`AttributeError`), modelled as `none`. -/
def host_to_device : Value → Option Value
  | .serialized s =>
      deserialize s.header.sub_header
        ((s.header.is_cuda.zip s.parts).map (fun p => if p.1 then to_device p.2 else p.2))
  | _ => none

/-- Modelled from the spec: `distributed.protocol.serialize_bytelist`, the
opaque invertible byte serializer used in front of the disk tier; modelled
as the identity on values. -/
def serialize_bytelist (v : Value) : Value := v

/-- Modelled from the spec: `distributed.protocol.deserialize_bytes`, the
inverse of `serialize_bytelist`. -/
def deserialize_bytes (v : Value) : Value := v

/-- A dictionary-like store interface over a state type `σ`, used to
compose cache tiers.  `get` always returns the post-call state, so that
mutations made before an exception are kept, as in Python. -/
structure StoreOps (σ : Type) where
  mem : σ → Key → Bool
  get : σ → Key → Except Err Value × σ
  set : σ → Key → Value → σ
  del : σ → Key → Option σ
  size : σ → Nat

/-- A plain Python `dict` (or the disk directory), as an association list. -/
abbrev Dict := List (Key × Value)

def dictMem (d : Dict) (k : Key) : Bool := (d.find? (fun p => p.1 == k)).isSome

def dictPut (d : Dict) (k : Key) (v : Value) : Dict :=
  (d.filter (fun p => p.1 != k)) ++ [(k, v)]

def dictDel (d : Dict) (k : Key) : Option Dict :=
  if dictMem d k then some (d.filter (fun p => p.1 != k)) else none

def dictGet (d : Dict) (k : Key) : Except Err Value × Dict :=
  match d.find? (fun p => p.1 == k) with
  | some p => (.ok p.2, d)
  | none => (.error .notFound, d)

def dictOps : StoreOps Dict := ⟨dictMem, dictGet, dictPut, dictDel, List.length⟩

/-- Modelled from the spec: zict's `Func` (the Transform wrapper, outside
src/): a store view that encodes on write with `dump` and decodes on read
with `load`; membership, deletion and length act on the inner store. -/
def FuncOps (dump : Value → Value) (load : Value → Except Err Value)
    (inner : StoreOps σ) : StoreOps σ where
  mem := inner.mem
  get := fun s k =>
    match inner.get s k with
    | (.ok v, s') => (load v, s')
    | (.error e, s') => (.error e, s')
  set := fun s k v => inner.set s k (dump v)
  del := inner.del
  size := inner.size

/-- One SpillCache level: a weighted LRU fast store (recency-ordered list,
head = least recently used, tail = most recently used) over a slower
next-level store. -/
structure Buffer (σ : Type) where
  fast : Dict
  slow : σ
deriving DecidableEq, Repr

/-- Total byte weight of the fast store. -/
def totalWeight (d : Dict) : Nat := (d.map (fun p => weight p.2)).sum

/-- Refresh a key to most-recently-used on a successful fast-store read. -/
def fastTouch (d : Dict) (k : Key) : Dict :=
  match d.find? (fun p => p.1 == k) with
  | some p => (d.filter (fun q => q.1 != k)) ++ [(k, p.2)]
  | none => d

/-- Modelled from the spec: the SpillCache eviction loop (zict's
LRU-with-eviction-callback engine, outside src/): while the fast store
exceeds capacity, push the least-recently-used entry into the next level
(whose `set` applies the down-transform) and drop it from the fast store. -/
def spillLoop (slowOps : StoreOps σ) (cap : Nat) : Dict → σ → Buffer σ
  | [], slow => ⟨[], slow⟩
  | (k, v) :: rest, slow =>
      if totalWeight ((k, v) :: rest) ≤ cap then ⟨(k, v) :: rest, slow⟩
      else spillLoop slowOps cap rest (slowOps.set slow k v)

/-- Modelled from the spec: SpillCache `put` (zict `Buffer.__setitem__`,
outside src/): drop any stale copy from the slow store (a key is never
duplicated across tiers), insert at most-recently-used, then evict
oldest-first until within capacity. -/
def bufPut (slowOps : StoreOps σ) (cap : Nat) (b : Buffer σ) (k : Key) (v : Value) :
    Buffer σ :=
  let slow0 := if slowOps.mem b.slow k then (slowOps.del b.slow k).getD b.slow else b.slow
  spillLoop slowOps cap (dictPut b.fast k v) slow0

/-- Modelled from the spec: SpillCache membership (zict
`Buffer.__contains__`): in the fast store or in the next level. -/
def bufMem (slowOps : StoreOps σ) (b : Buffer σ) (k : Key) : Bool :=
  dictMem b.fast k || slowOps.mem b.slow k

/-- Modelled from the spec: SpillCache `get` (zict `Buffer.__getitem__`):
fast-store hit refreshes recency; otherwise fetch from the next level,
remove it there, and promote it into the fast store via `put` (which may
cascade further eviction).  A decode failure in the next level is
propagated after the next level's own mutations, as in Python. -/
def bufGet (slowOps : StoreOps σ) (cap : Nat) (b : Buffer σ) (k : Key) :
    Except Err Value × Buffer σ :=
  match b.fast.find? (fun p => p.1 == k) with
  | some p => (.ok p.2, ⟨fastTouch b.fast k, b.slow⟩)
  | none =>
    if slowOps.mem b.slow k then
      match slowOps.get b.slow k with
      | (.ok v, slow') =>
          let slow'' := (slowOps.del slow' k).getD slow'
          (.ok v, bufPut slowOps cap ⟨b.fast, slow''⟩ k v)
      | (.error e, slow') => (.error e, ⟨b.fast, slow'⟩)
    else (.error .notFound, b)

/-- Modelled from the spec: SpillCache `delete` (zict
`Buffer.__delitem__`): remove from the fast store if present, else forward
to the next level; `none` models `KeyError` when absent everywhere. -/
def bufDel (slowOps : StoreOps σ) (b : Buffer σ) (k : Key) : Option (Buffer σ) :=
  if dictMem b.fast k then some ⟨b.fast.filter (fun p => p.1 != k), b.slow⟩
  else match slowOps.del b.slow k with
    | some s' => some ⟨b.fast, s'⟩
    | none => none

/-- Modelled from the spec: SpillCache `len` (zict `Buffer.__len__`):
fast-store count plus next-level count. -/
def bufSize (slowOps : StoreOps σ) (b : Buffer σ) : Nat :=
  b.fast.length + slowOps.size b.slow

def bufOps (slowOps : StoreOps σ) (cap : Nat) : StoreOps (Buffer σ) :=
  ⟨bufMem slowOps, bufGet slowOps cap, bufPut slowOps cap, bufDel slowOps, bufSize slowOps⟩

/-- The disk tier behind its byte serializer:
`Func(serialize_bytelist, deserialize_bytes, File(path))`. -/
def diskOps : StoreOps Dict :=
  FuncOps serialize_bytelist (fun v => .ok (deserialize_bytes v)) dictOps

/-- The host buffer state: host fast store over the disk store. -/
abbrev HostState := Buffer Dict

/-- `host_buffer = Buffer(host_func, disk_func, memory_limit, weight)`. -/
def hostOps (memory_limit : Nat) : StoreOps HostState := bufOps diskOps memory_limit

/-- `host_to_device` as a store decode step: failure on a value that is
not a `DeviceSerialized` (Python `AttributeError`). -/
def h2dE (v : Value) : Except Err Value :=
  match host_to_device v with
  | some w => .ok w
  | none => .error .badValue

/-- `device_host_func = Func(device_to_host, host_to_device, host_buffer)`:
the device buffer's slow side, sharing state with the host buffer. -/
def deviceSlowOps (memory_limit : Nat) : StoreOps HostState :=
  FuncOps device_to_host h2dE (hostOps memory_limit)

/-- The device buffer state: device fast store over the (shared) host
buffer state. -/
abbrev DeviceState := Buffer HostState

/-- The façade state.  `device_buffer.slow` is the host buffer (the Python
objects alias: `device_host_func` wraps `self.host_buffer`); its `slow` in
turn is the disk store. -/
structure DeviceHostFile where
  device_memory_limit : Nat
  memory_limit : Nat
  device_keys : List Key
  device_buffer : DeviceState
deriving DecidableEq, Repr

/-- `self.host_buffer`, reached through the aliasing. -/
def DeviceHostFile.host_buffer (f : DeviceHostFile) : HostState := f.device_buffer.slow

/-- `DeviceHostFile.__init__`: all stores start empty. -/
def DeviceHostFile.init (device_memory_limit memory_limit : Nat) : DeviceHostFile :=
  ⟨device_memory_limit, memory_limit, [], ⟨[], ⟨[], []⟩⟩⟩

/-- Python `set.add`. -/
def setAdd (l : List Key) (k : Key) : List Key := if k ∈ l then l else l ++ [k]

/-- Python `set.discard`. -/
def setDiscard (l : List Key) (k : Key) : List Key := l.filter (fun x => x != k)

/-- `DeviceHostFile.__setitem__`: device-classified values go to the
device buffer and are recorded in `device_keys`; all others go straight to
the host buffer (the source does not touch `device_keys` in this branch). -/
def DeviceHostFile.setItem (f : DeviceHostFile) (k : Key) (v : Value) : DeviceHostFile :=
  if is_device_object v then
    { f with
      device_keys := setAdd f.device_keys k,
      device_buffer := bufPut (deviceSlowOps f.memory_limit) f.device_memory_limit
        f.device_buffer k v }
  else
    { f with
      device_buffer := { f.device_buffer with
        slow := bufPut diskOps f.memory_limit f.device_buffer.slow k v } }

/-- `DeviceHostFile.__getitem__`: route through the device buffer when the
key is in `device_keys`, else through the host buffer, else `KeyError`.
The second component is the post-call state (recency and promotion
effects), also on failure. -/
def DeviceHostFile.getItem (f : DeviceHostFile) (k : Key) :
    Except Err Value × DeviceHostFile :=
  if k ∈ f.device_keys then
    let rdb := bufGet (deviceSlowOps f.memory_limit) f.device_memory_limit f.device_buffer k
    (rdb.1, { f with device_buffer := rdb.2 })
  else if bufMem diskOps f.device_buffer.slow k then
    let rhb := bufGet diskOps f.memory_limit f.device_buffer.slow k
    (rhb.1, { f with device_buffer := { f.device_buffer with slow := rhb.2 } })
  else (.error .notFound, f)

/-- `DeviceHostFile.__delitem__`: discard from `device_keys`, then delete
from the device buffer chain.  The discard happens first in the source, so
it survives even when the delete raises `KeyError`. -/
def DeviceHostFile.delItem (f : DeviceHostFile) (k : Key) :
    Option Err × DeviceHostFile :=
  match bufDel (deviceSlowOps f.memory_limit) f.device_buffer k with
  | some db =>
      (none, { f with device_keys := setDiscard f.device_keys k, device_buffer := db })
  | none => (some .notFound, { f with device_keys := setDiscard f.device_keys k })

/-- `DeviceHostFile.__len__ = len(self.device_buffer)`. -/
def DeviceHostFile.length (f : DeviceHostFile) : Nat :=
  bufSize (deviceSlowOps f.memory_limit) f.device_buffer

/-- The public map-like operations of the façade. -/
inductive Op where
  | set (k : Key) (v : Value)
  | get (k : Key)
  | del (k : Key)
deriving DecidableEq, Repr

/-- Apply one public operation: a failed `get`/`del` keeps the partial
mutations it made, as the Python exceptions do. -/
def applyOp (f : DeviceHostFile) : Op → DeviceHostFile
  | .set k v => f.setItem k v
  | .get k => (f.getItem k).2
  | .del k => (f.delItem k).2

/-- The façade state reached by running a sequence of public operations
from a freshly constructed cache. -/
def run (device_memory_limit memory_limit : Nat) (ops : List Op) : DeviceHostFile :=
  ops.foldl applyOp (DeviceHostFile.init device_memory_limit memory_limit)

/-- A key is device-classified by an operation history when some `set`
with a device-resident value, not followed by a `delete` of the key, has
happened; a later non-device `set` of the key does not declassify it. -/
def classifiedDevice (ops : List Op) (k : Key) : Bool :=
  ops.foldl (fun acc op =>
    match op with
    | .set k' v => if k' = k then (if is_device_object v then true else acc) else acc
    | .del k' => if k' = k then false else acc
    | .get _ => acc) false

/-! ## Helper lemmas -/

lemma getItem_keys (f : DeviceHostFile) (k : Key) :
    ((f.getItem k).2).device_keys = f.device_keys := by
  unfold DeviceHostFile.getItem
  split_ifs <;> rfl

lemma delItem_keys (f : DeviceHostFile) (k : Key) :
    ((f.delItem k).2).device_keys = setDiscard f.device_keys k := by
  cases h : bufDel (deviceSlowOps f.memory_limit) f.device_buffer k <;>
    simp [DeviceHostFile.delItem, h]

lemma setItem_keys_device (f : DeviceHostFile) (k : Key) (v : Value)
    (h : is_device_object v = true) :
    (f.setItem k v).device_keys = setAdd f.device_keys k := by
  simp [DeviceHostFile.setItem, h]

lemma setItem_keys_host (f : DeviceHostFile) (k : Key) (v : Value)
    (h : is_device_object v = false) :
    (f.setItem k v).device_keys = f.device_keys := by
  simp [DeviceHostFile.setItem, h]

lemma mem_setAdd (l : List Key) (k k' : Key) : k ∈ setAdd l k' ↔ k = k' ∨ k ∈ l := by
  unfold setAdd
  split_ifs with h
  · constructor
    · exact fun hk => Or.inr hk
    · rintro (rfl | hk)
      · exact h
      · exact hk
  · simp [List.mem_append, or_comm]

lemma mem_setDiscard (l : List Key) (k k' : Key) :
    k ∈ setDiscard l k' ↔ k ∈ l ∧ k ≠ k' := by
  simp [setDiscard, List.mem_filter]

/-- Core induction: along any operation history, membership of a key in
`device_keys` evolves exactly as the device-classification fold does. -/
lemma run_keys_aux (k : Key) :
    ∀ (ops : List Op) (f : DeviceHostFile) (b : Bool),
      (k ∈ f.device_keys ↔ b = true) →
      (k ∈ (ops.foldl applyOp f).device_keys ↔
        (ops.foldl (fun acc op =>
          match op with
          | .set k' v => if k' = k then (if is_device_object v then true else acc) else acc
          | .del k' => if k' = k then false else acc
          | .get _ => acc) b) = true) := by
  intro ops
  induction ops with
  | nil => intro f b h; simpa using h
  | cons op rest ih =>
    intro f b h
    simp only [List.foldl_cons]
    apply ih
    cases op with
    | set k' v =>
      simp only [applyOp]
      by_cases hd : is_device_object v = true
      · rw [setItem_keys_device _ _ _ hd]
        by_cases hk : k' = k
        · subst hk
          simp [mem_setAdd, hd]
        · have hk' : ¬ k = k' := fun hh => hk hh.symm
          simp [mem_setAdd, hd, hk, hk', h]
      · have hd' : is_device_object v = false := by simpa using hd
        rw [setItem_keys_host _ _ _ hd']
        simp [hd', h]
    | get k' =>
      simpa [applyOp, getItem_keys] using h
    | del k' =>
      simp only [applyOp]
      rw [delItem_keys]
      by_cases hk : k' = k
      · subst hk
        simp [mem_setDiscard]
      · have hk' : ¬ k = k' := fun hh => hk hh.symm
        simp [mem_setDiscard, hk, hk', h]

/-- Each accelerator frame copied down by `device_to_host` is restored by
the flagged `to_device` copy in `host_to_device`; ordinary frames pass
through untouched. -/
lemma restore_frames (frames : List Frame) :
    ((frames.map (fun f => f.is_cuda)).zip
      (frames.map (fun f => if f.is_cuda then copy_to_host f else f))).map
        (fun p => if p.1 then to_device p.2 else p.2) = frames := by
  induction frames with
  | nil => rfl
  | cons f fs ih =>
    simp only [List.map_cons, List.zip_cons_cons]
    rw [ih]
    rcases f with ⟨ic, i, s⟩
    cases ic <;> simp [copy_to_host, to_device]

lemma zip_truncates (flags extra : List Bool) (parts : List Frame)
    (h : flags.length = parts.length) :
    (flags ++ extra).zip parts = flags.zip parts := by
  induction flags generalizing parts with
  | nil =>
    cases parts with
    | nil => simp
    | cons p ps => simp at h
  | cons a as ih =>
    cases parts with
    | nil => simp at h
    | cons p ps =>
      simp only [List.cons_append, List.zip_cons_cons]
      rw [ih ps (by simpa using h)]

/-! ## Concrete scenario states used by the claims -/

/-- Key 5 is first inserted with a device value (so it enters
`device_keys` and the device fast store) and then overwritten with a host
value, which the source routes to the host buffer without touching either
the stale device copy or the residency index. -/
def staleReinsertState : DeviceHostFile :=
  run 100 100 [.set 5 (.device 1 10), .set 5 (.host 2 10)]

/-- Same reinsertion with a zero device budget, so the first insert spills
the device value into the host buffer and the second insert overwrites
that encoded copy in place with a raw host value, while the key stays
device-classified. -/
def staleSpillState : DeviceHostFile :=
  run 0 100 [.set 5 (.device 1 10), .set 5 (.host 2 8)]

/-- The LRU scenario: insert `a` and `b` (equal weight `w`), read `a`,
then insert `c`, against a host budget of `2 * w`. -/
def lruTrace (a b c : Key) (ia ib ic w : Nat) : List Op :=
  [.set a (.host ia w), .set b (.host ib w), .get a, .set c (.host ic w)]

/-! ## Claims -/

/-- C1: the round-trip claim fails on the code.  After `set(5, device)`
followed by `set(5, host)`, `get(5)` routes through the stale residency
index and returns the old device value, not the host value just stored:
`__setitem__`'s non-device branch never removes the key from
`device_keys` nor the stale copy from the device fast store. -/
theorem C1_roundtrip_fails_on_reclassified_key :
    (staleReinsertState.getItem 5).1 = .ok (Value.device 1 10) ∧
    (Value.device 1 10 : Value) ≠ .host 2 10 := ⟨rfl, by decide⟩

/-- C2: the exclusive-residency claim fails on the code.  In the
reachable state after `set(5, device)`; `set(5, host)`, key 5 is
physically present in the device tier's fast store and in the host tier's
fast store at the same time. -/
theorem C2_key_present_in_two_tiers :
    dictMem staleReinsertState.device_buffer.fast 5 = true ∧
    dictMem staleReinsertState.host_buffer.fast 5 = true := ⟨rfl, rfl⟩

/-- C3 counterexample: the residency index does not mirror physical
presence in the device fast store.  Inserting a device value whose weight
exceeds the device budget spills it straight into the host buffer, yet
the key stays in `device_keys`. -/
theorem C3_index_differs_from_device_fast_store :
    1 ∈ (run 10 100 [.set 1 (.device 7 20)]).device_keys ∧
    dictMem (run 10 100 [.set 1 (.device 7 20)]).device_buffer.fast 1 = false := by
  constructor
  · decide
  · rfl

/-- C3 amended: in every reachable state, `device_keys` holds exactly the
keys that are device-classified by the operation history — inserted with
a device-resident value at some point and not deleted since.  The index
tracks classification (used for read routing), not physical presence in
the device fast store; in particular a key spilled to the host buffer
stays in the index, and a key re-inserted with a non-device value also
stays in it. -/
theorem C3_device_keys_tracks_classification
    (dml ml : Nat) (ops : List Op) (k : Key) :
    k ∈ (run dml ml ops).device_keys ↔ classifiedDevice ops k = true := by
  have := run_keys_aux k ops (DeviceHostFile.init dml ml) false
    (by simp [DeviceHostFile.init])
  simpa [run, classifiedDevice] using this

/-- C4: the claim fails on the code.  Inserting a non-device value for a
key previously classified device-resident does insert the value into the
host buffer, but the key remains in the residency index: the non-device
branch of `__setitem__` never discards it. -/
theorem C4_host_insert_keeps_stale_device_key :
    staleReinsertState.host_buffer.fast = [(5, Value.host 2 10)] ∧
    5 ∈ staleReinsertState.device_keys := ⟨rfl, by decide⟩

/-- C5: the claim fails on the code.  In `staleSpillState`, key 5 is
present in the host tier, yet `get(5)` neither returns a value nor raises
`KeyError`: the stale residency index routes the read through
`host_to_device`, which blows up on the raw host value
(`AttributeError` in Python, `badValue` here). -/
theorem C5_get_fails_on_present_key :
    bufMem diskOps staleSpillState.host_buffer 5 = true ∧
    (staleSpillState.getItem 5).1 = .error .badValue := ⟨rfl, rfl⟩

/-- C6 counterexample: `host_to_device` does not fail on an encoded input
whose flag sequence is longer than its part list; Python's `zip`
truncates silently and deserialization succeeds. -/
theorem C6_mismatched_lengths_do_not_fail :
    ([true, true] : List Bool).length ≠ ([(⟨false, 3, 4⟩ : Frame)]).length ∧
    host_to_device (.serialized ⟨⟨1, [true, true]⟩, [⟨false, 3, 4⟩]⟩)
      = some (.device 3 4) := ⟨by decide, rfl⟩

/-- C6 amended: for every value on which the generic serializer
round-trips, `host_to_device` after `device_to_host` rebuilds the value
exactly (the flagged frame copies restore each accelerator frame); and on
an encoded input whose flag sequence is longer than its part count,
`host_to_device` silently processes the common prefix (`zip` truncation)
instead of failing. -/
theorem C6_transform_roundtrip :
    (∀ v : Value, deserialize (serialize v).1 (serialize v).2 = some v →
        host_to_device (device_to_host v) = some v) ∧
    (∀ (sub : Nat) (flags extra : List Bool) (parts : List Frame),
        flags.length = parts.length →
        host_to_device (.serialized ⟨⟨sub, flags ++ extra⟩, parts⟩)
          = host_to_device (.serialized ⟨⟨sub, flags⟩, parts⟩)) := by
  constructor
  · intro v h
    simp only [device_to_host, host_to_device]
    rw [restore_frames]
    exact h
  · intro sub flags extra parts h
    simp only [host_to_device]
    rw [zip_truncates _ _ _ h]

/-- C6 witness: the round-trip at a concrete device value, and the
truncation insensitivity at a concrete encoded value. -/
theorem C6_transform_roundtrip_witness :
    (deserialize (serialize (Value.device 3 4)).1 (serialize (Value.device 3 4)).2
        = some (Value.device 3 4)) ∧
    host_to_device (device_to_host (Value.device 3 4)) = some (Value.device 3 4) ∧
    (([false] : List Bool).length = ([(⟨false, 9, 2⟩ : Frame)]).length ∧
      host_to_device (.serialized ⟨⟨0, [false] ++ [true]⟩, [⟨false, 9, 2⟩]⟩)
        = host_to_device (.serialized ⟨⟨0, [false]⟩, [⟨false, 9, 2⟩]⟩)) :=
  ⟨by decide, C6_transform_roundtrip.1 (Value.device 3 4) (by decide),
    by decide, C6_transform_roundtrip.2 0 [false] [true] [⟨false, 9, 2⟩] (by decide)⟩

/-- C7: LRU eviction order at the host level.  With a budget admitting
exactly two entries of weight `w`, inserting `a` then `b`, reading `a`
(so `b` becomes least recently used), then inserting `c` evicts `b` — and
not `a` — to the disk level. -/
theorem C7_lru_evicts_least_recently_used (dml w : Nat) (a b c : Key) (ia ib ic : Nat)
    (hab : a ≠ b) (hac : a ≠ c) (hbc : b ≠ c) (hw : 1 ≤ w) :
    (run dml (2 * w) (lruTrace a b c ia ib ic w)).host_buffer.fast
        = [(a, .host ia w), (c, .host ic w)] ∧
    (run dml (2 * w) (lruTrace a b c ia ib ic w)).host_buffer.slow
        = [(b, .host ib w)] := by
  have hba : b ≠ a := hab.symm
  have hca : c ≠ a := hac.symm
  have hcb : c ≠ b := hbc.symm
  have h1 : (DeviceHostFile.init dml (2 * w)).setItem a (.host ia w)
      = ⟨dml, 2 * w, [], ⟨[], ⟨[(a, .host ia w)], []⟩⟩⟩ := by
    simp [DeviceHostFile.init, DeviceHostFile.setItem, is_device_object, bufPut, dictPut,
      dictMem, diskOps, FuncOps, dictOps, spillLoop, totalWeight, weight]
    all_goals first
      | rfl
      | omega
  have h2 : (⟨dml, 2 * w, [], ⟨[], ⟨[(a, .host ia w)], []⟩⟩⟩ : DeviceHostFile).setItem b
        (.host ib w)
      = ⟨dml, 2 * w, [], ⟨[], ⟨[(a, .host ia w), (b, .host ib w)], []⟩⟩⟩ := by
    simp [DeviceHostFile.setItem, is_device_object, bufPut, dictPut,
      dictMem, diskOps, FuncOps, dictOps, spillLoop, totalWeight, weight, hab, hba]
    all_goals first
      | rfl
      | omega
  have h3 : (⟨dml, 2 * w, [], ⟨[], ⟨[(a, .host ia w), (b, .host ib w)], []⟩⟩⟩ :
        DeviceHostFile).getItem a
      = (.ok (.host ia w),
         ⟨dml, 2 * w, [], ⟨[], ⟨[(b, .host ib w), (a, .host ia w)], []⟩⟩⟩) := by
    simp [DeviceHostFile.getItem, bufMem, bufGet, dictMem, diskOps, FuncOps, dictOps,
      fastTouch, hab, hba]
  have h4 : (⟨dml, 2 * w, [], ⟨[], ⟨[(b, .host ib w), (a, .host ia w)], []⟩⟩⟩ :
        DeviceHostFile).setItem c (.host ic w)
      = ⟨dml, 2 * w, [],
         ⟨[], ⟨[(a, .host ia w), (c, .host ic w)], [(b, .host ib w)]⟩⟩⟩ := by
    simp [DeviceHostFile.setItem, is_device_object, bufPut, dictPut,
      dictMem, diskOps, FuncOps, dictOps, spillLoop, totalWeight, weight,
      serialize_bytelist, hcb, hca, hbc, hac, hba, hab]
    all_goals first
      | rfl
      | omega
      | (split_ifs <;> first | rfl | (exfalso; omega))
  have hrun : run dml (2 * w) (lruTrace a b c ia ib ic w)
      = ⟨dml, 2 * w, [],
         ⟨[], ⟨[(a, .host ia w), (c, .host ic w)], [(b, .host ib w)]⟩⟩⟩ := by
    simp only [run, lruTrace, List.foldl, applyOp]
    rw [h1, h2, h3]
    exact h4
  rw [hrun]
  exact ⟨rfl, rfl⟩

/-- C7 witness: the LRU scenario at concrete keys 0, 1, 2 and weight 60
against a host budget of 120 bytes. -/
theorem C7_lru_evicts_least_recently_used_witness :
    (0 : Key) ≠ 1 ∧ (0 : Key) ≠ 2 ∧ (1 : Key) ≠ 2 ∧ (1 : Nat) ≤ 60 ∧
    ((run 100 (2 * 60) (lruTrace 0 1 2 10 11 12 60)).host_buffer.fast
        = [(0, .host 10 60), (2, .host 12 60)] ∧
     (run 100 (2 * 60) (lruTrace 0 1 2 10 11 12 60)).host_buffer.slow
        = [(1, .host 11 60)]) :=
  ⟨by decide, by decide, by decide, by decide,
    C7_lru_evicts_least_recently_used 100 60 0 1 2 10 11 12
      (by decide) (by decide) (by decide) (by decide)⟩

/-- C8: the claim fails on the code.  In `staleReinsertState` key 5 is
present; `delete(5)` succeeds (no error) but only removes the device-tier
copy, and the subsequent `get(5)` still returns the host value instead of
raising `KeyError`. -/
theorem C8_get_after_delete_returns_value :
    (staleReinsertState.delItem 5).1 = none ∧
    (((staleReinsertState.delItem 5).2).getItem 5).1 = .ok (Value.host 2 10) :=
  ⟨rfl, rfl⟩

/-- C9: the claim fails on the code.  After inserting the single key 5
twice (device value then host value), one distinct key is live but
`len()` reports 2: the key is counted once in the device fast store and
once through the host buffer. -/
theorem C9_len_double_counts_reclassified_key : staleReinsertState.length = 2 := rfl

/-- C10: `get` never modifies the residency index — for every state
(reachable or not) and every key, the `device_keys` after `__getitem__`
(whether it returns a value or fails) equal the `device_keys` before. -/
theorem C10_get_preserves_device_keys (f : DeviceHostFile) (k : Key) :
    ((f.getItem k).2).device_keys = f.device_keys := getItem_keys f k
